import Mathlib

/-!  Verification development for the Percipio depth-camera test harness
     (`percipio_camera_test.py`).

     The embedding keeps the Python structure: raw depth frames are 2-D grids
     of natural numbers, statistics are computed over exact rationals (with
     `Real.sqrt` for the `np.std` square root), acquisition results are
     `Option Frame` (a `None` models a timed-out `capture_single_frame`), and
     a procedure body that may raise is an `Except String` value consumed by
     `runTest`.  Wall-clock pacing (sleeps, tqdm progress) carries no data and
     is not modelled; the sequence of frames each loop observes is passed in
     explicitly.  `np.random.choice(n, k, replace=False)` is modelled by an
     arbitrary without-replacement index draw. -/

namespace Percipio

/-- A depth frame: a 2-D grid of raw unsigned integer depth samples,
row-major (`frame[y][x]`), as produced by `frame.as_nparray()`. -/
abbrev Frame := List (List ℕ)

/-- One raw value's validity test: `(depth_data > 0) & (depth_data < 65535)`. -/
def validPixel (v : ℕ) : Bool := decide (0 < v) && decide (v < 65535)

/-- `depth_data[y][x]`; reads outside the grid default to 0 (the code always
bounds-checks before indexing, so the default is never observed). -/
def pixelAt (f : Frame) (y x : ℕ) : ℕ := (f.getD y []).getD x 0

/-- Row-major flattening of a frame to exact values
(`depth_data.astype(np.float64)`). -/
def flatten (f : Frame) : List ℚ := f.flatten.map (fun v => (v : ℚ))

/-- The raw values of the valid pixels in row-major (numpy boolean indexing)
order: `depth_data[valid_mask]`. -/
def validValues (f : Frame) : List ℚ := (f.flatten.filter validPixel).map (fun v => (v : ℚ))

/-- `int(np.sum(valid_mask))`. -/
def validCount (f : Frame) : ℕ := f.flatten.countP validPixel

/-- `valid_mask.size`. -/
def totalCount (f : Frame) : ℕ := f.flatten.length

/-- The valid coordinates of one row `y`, in ascending-`x` order: the column
indices where the mask holds, paired with the row index. -/
def rowValid (y : ℕ) (row : List ℕ) : List (ℕ × ℕ) :=
  ((List.range row.length).filter fun x => validPixel (row.getD x 0)).map fun x => (y, x)

/-- `np.where(valid_mask)` as a list of `(y, x)` pairs in row-major order. -/
def validCoords (f : Frame) : List (ℕ × ℕ) :=
  ((List.range f.length).map fun y => rowValid y (f.getD y [])).flatten

/-- `np.mean` over a list of exact values (an empty list gives 0; the code
only takes means of lists it has checked to be nonempty). -/
def qmean (l : List ℚ) : ℚ := l.sum / l.length

/-- Population variance: the mean squared deviation from the mean
(what `np.std` squares). -/
def qvar (l : List ℚ) : ℚ := (l.map (fun x => (x - qmean l) ^ 2)).sum / l.length

/-- `np.std`: the square root of the population variance. -/
noncomputable def qstd (l : List ℚ) : ℝ := Real.sqrt ((qvar l : ℚ) : ℝ)

/-- `np.max` of a nonempty list (0 on the empty list, never hit by the code). -/
def qmax : List ℚ → ℚ
  | [] => 0
  | h :: t => t.foldl max h

/-- `np.min` of a nonempty list (0 on the empty list, never hit by the code). -/
def qmin : List ℚ → ℚ
  | [] => 0
  | h :: t => t.foldl min h

/-- `np.max(np.abs(depths - mean))`: the maximum absolute deviation. -/
def qmaxAbsDev (l : List ℚ) : ℚ := qmax (l.map (fun x => |x - qmean l|))

/-- `np.mean` over already-real values (per-point standard deviations). -/
noncomputable def rmean (l : List ℝ) : ℝ := l.sum / l.length

/-- Population variance over real values. -/
noncomputable def rvar (l : List ℝ) : ℝ := (l.map (fun x => (x - rmean l) ^ 2)).sum / l.length

/-- `np.std` over real values. -/
noncomputable def rstd (l : List ℝ) : ℝ := Real.sqrt (rvar l)

/-- `np.max` over real values (0 on the empty list, never hit by the code). -/
noncomputable def rmax : List ℝ → ℝ
  | [] => 0
  | h :: t => t.foldl max h

/-- The `TestResult` dataclass.  `data` is `Option`al: `none` is the initial
empty dict `{}` that an exception leaves in place.  The wall-clock
`execution_time` field carries no analysable content and is omitted. -/
structure TestResult (α : Type) where
  test_name : String
  success : Bool
  data : Option α
  error_message : Option String

/-- `run_test`: run the body; a normal return of `d` yields
`success=True, data=d`; a raised exception with message `m` yields
`success=False`, the untouched empty data, and `error_message=m`. -/
def runTest {α : Type} (name : String) (body : Except String α) : TestResult α :=
  match body with
  | .ok d => ⟨name, true, some d, none⟩
  | .error m => ⟨name, false, none, some m⟩

/-- The `self.test_params` configuration dict. -/
structure TestParams where
  frame_rate_test_duration : ℕ
  repeatability_test_count : ℕ
  stability_test_duration : ℕ
  noise_test_count : ℕ

/-- The values assigned in `__init__`. -/
def defaultTestParams : TestParams := ⟨10, 1000, 10, 5⟩

/-- The ordered list of (name, body) pairs `run_all_tests` actually invokes:
basic and repeatability always; frame-rate, stability and noise only when
their duration/count parameter is positive. -/
def enabledProcs {α : Type} (p : TestParams) (basic fr rep st no : Except String α) :
    List (String × Except String α) :=
  [("基础功能测试", basic)]
    ++ (if 0 < p.frame_rate_test_duration then [("帧率测试", fr)] else [])
    ++ [("重复精度测试", rep)]
    ++ (if 0 < p.stability_test_duration then [("稳定性测试", st)] else [])
    ++ (if 0 < p.noise_test_count then [("噪声测试", no)] else [])

/-- `run_all_tests` on a fresh tester: empty when setup fails, otherwise the
results appended by the conditional `run_test` calls, in program order. -/
def runAllTests {α : Type} (setupOk : Bool) (p : TestParams)
    (basic fr rep st no : Except String α) : List (TestResult α) :=
  if setupOk then
    [runTest "基础功能测试" basic]
      ++ (if 0 < p.frame_rate_test_duration then [runTest "帧率测试" fr] else [])
      ++ [runTest "重复精度测试" rep]
      ++ (if 0 < p.stability_test_duration then [runTest "稳定性测试" st] else [])
      ++ (if 0 < p.noise_test_count then [runTest "噪声测试" no] else [])
  else []

/-- The `depth_stats` dict of `test_basic_functionality`. -/
structure DepthStats where
  valid_pixels : ℕ
  total_pixels : ℕ
  valid_ratio : ℚ
  min_depth : ℚ
  max_depth : ℚ
  mean_depth : ℚ
  std_depth : ℝ

/-- Lines 215-234 of `test_basic_functionality`: the valid mask, the
millimeter conversion `valid_depths * scale`, and the statistics dict;
`none` when no pixel is valid (the dict stays `None`). -/
noncomputable def depthStats (f : Frame) (scale : ℚ) : Option DepthStats :=
  if validValues f = [] then none
  else
    let mm := (validValues f).map (fun v => v * scale)
    some ⟨validCount f, totalCount f, (validCount f : ℚ) / (totalCount f : ℚ),
      qmin mm, qmax mm, qmean mm, qstd mm⟩

/-- The slice of `test_basic_functionality`'s returned data the claims are
about: whether a frame was captured, and its `depth_stats`. -/
structure BasicData where
  has_depth : Bool
  depth_stats : Option DepthStats

/-- `test_basic_functionality` on the single captured frame (or timeout). -/
noncomputable def testBasicFunctionality (frame : Option Frame) (scale : ℚ) : BasicData :=
  match frame with
  | none => ⟨false, none⟩
  | some f => ⟨true, depthStats f scale⟩

/-- `target_points = 25`. -/
def targetPoints : ℕ := 25

/-- Point selection from the seed frame: with at least `targetPoints` valid
pixels, the coordinates at the without-replacement indices drawn by
`np.random.choice` (the draw is the model's nondeterministic input);
otherwise every valid pixel. -/
def selectedPoints (seed : Option Frame) (draw : List ℕ) : List (ℕ × ℕ) :=
  match seed with
  | none => []
  | some f =>
    if targetPoints ≤ (validCoords f).length then
      draw.map (fun i => (validCoords f).getD i (0, 0))
    else validCoords f

/-- The value of `target_points` after selection: 25, or the number of valid
pixels when there were fewer than 25. -/
def selectedTarget (seed : Option Frame) : ℕ :=
  match seed with
  | none => targetPoints
  | some f =>
    if targetPoints ≤ (validCoords f).length then targetPoints
    else (validCoords f).length

/-- The sample sequence `point_data[j]` one selected point accumulates over
the capture loop: for every successfully captured frame in which the point is
in bounds and its depth is valid, the millimeter value `depth * scale`. -/
def pointSamples (frames : List (Option Frame)) (scale : ℚ) (pt : ℕ × ℕ) : List ℚ :=
  frames.filterMap fun od =>
    match od with
    | none => none
    | some d =>
      if pt.1 < d.length ∧ pt.2 < (d.getD pt.1 []).length then
        if validPixel (pixelAt d pt.1 pt.2) then
          some ((pixelAt d pt.1 pt.2 : ℚ) * scale)
        else none
      else none

/-- One entry of `point_analysis`; `coordinates` is `[x, y]` as in the code. -/
structure PointAnalysis where
  point_id : ℕ
  coordinates : ℕ × ℕ
  measurement_count : ℕ
  mean_depth : ℚ
  std_depth : ℝ
  max_depth_deviation : ℚ
  depth_range : ℚ

/-- The body of the per-point analysis loop: a point with at least 2 recorded
samples yields mean, population standard deviation, maximum absolute
deviation and range of its sample sequence; otherwise it is skipped. -/
noncomputable def analyzePoint (i : ℕ) (pt : ℕ × ℕ) (samples : List ℚ) : Option PointAnalysis :=
  if 2 ≤ samples.length then
    some ⟨i, (pt.2, pt.1), samples.length, qmean samples, qstd samples,
      qmaxAbsDev samples, qmax samples - qmin samples⟩
  else none

/-- The `for i in range(target_points)` analysis loop: appends the analysis
of each qualifying point, keeping execution order and the running index. -/
noncomputable def analyzeFrom : ℕ → List (ℕ × ℕ) → ((ℕ × ℕ) → List ℚ) → List PointAnalysis
  | _, [], _ => []
  | i, pt :: rest, g =>
    match analyzePoint i pt (g pt) with
    | some a => a :: analyzeFrom (i + 1) rest g
    | none => analyzeFrom (i + 1) rest g

/-- The `overall_stats` dict, with exactly the keys the code writes. -/
noncomputable def overallStats (pa : List PointAnalysis) : List (String × ℝ) :=
  let stds := pa.map PointAnalysis.std_depth
  let devs := pa.map (fun p => ((p.max_depth_deviation : ℚ) : ℝ))
  let ranges := pa.map (fun p => ((p.depth_range : ℚ) : ℝ))
  [("mean_depth_std", rmean stds),
   ("std_depth_std", rstd stds),
   ("max_depth_std", rmax stds),
   ("mean_depth_deviation", rmean devs),
   ("std_depth_deviation", rstd devs),
   ("max_depth_deviation", rmax devs),
   ("mean_depth_range", rmean ranges),
   ("std_depth_range", rstd ranges)]

/-- The success dict `test_repeatability` returns. -/
structure RepeatData where
  test_count : ℕ
  success_count : ℕ
  success_rate : ℚ
  target_points : ℕ
  valid_points : ℕ
  overall_stats : List (String × ℝ)
  point_analysis : List PointAnalysis
  test_point_coordinates : List (ℕ × ℕ)
  raw_depth_data : List (List ℚ)

/-- A repeatability return value: either the `{'error': msg}` dict (a normal
return, not an exception) or the full data dict. -/
inductive RepeatOutcome where
  | errorDict (msg : String)
  | dataDict (d : RepeatData)

/-- Whether the outcome is the `{'error': ...}` dict. -/
def RepeatOutcome.isError : RepeatOutcome → Bool
  | .errorDict _ => true
  | .dataDict _ => false

/-- `test_repeatability`: `seed` is the initial frame (or its timeout),
`draw` the `np.random.choice` index draw, `frames` the capture-loop frames. -/
noncomputable def testRepeatability (count : ℕ) (seed : Option Frame) (draw : List ℕ)
    (frames : List (Option Frame)) (scale : ℚ) : RepeatOutcome :=
  match seed with
  | none => .errorDict "无法获取初始深度图像"
  | some f =>
    if validCoords f = [] then .errorDict "未找到有效深度区域"
    else
      let pts := selectedPoints (some f) draw
      let analysis := analyzeFrom 0 pts (pointSamples frames scale)
      if analysis.length = 0 then .errorDict "没有足够的有效测试点数据"
      else
        .dataDict ⟨count, (frames.filterMap id).length,
          ((frames.filterMap id).length : ℚ) / (count : ℚ),
          selectedTarget (some f), analysis.length, overallStats analysis, analysis,
          pts.map (fun p => (p.2, p.1)), pts.map (pointSamples frames scale)⟩

/-- One stability measurement dict (the wall-clock `timestamp` is omitted). -/
structure Measurement where
  valid_pixels : ℕ
  total_pixels : ℕ
  valid_ratio : ℚ
  mean_depth : ℚ
  std_depth : ℝ
  min_depth : ℚ
  max_depth : ℚ

/-- The per-frame body of the stability loop: `none` when the frame has no
valid pixel, otherwise the measurement with raw statistics scaled to mm. -/
noncomputable def stabilityMeasurement (f : Frame) (scale : ℚ) : Option Measurement :=
  if validValues f = [] then none
  else
    some ⟨validCount f, totalCount f, (validCount f : ℚ) / (totalCount f : ℚ),
      qmean (validValues f) * scale, qstd (validValues f) * (scale : ℝ),
      qmin (validValues f) * scale, qmax (validValues f) * scale⟩

/-- The measurement list the stability loop accumulates over the frames it
observes (timed-out captures and all-invalid frames record nothing). -/
noncomputable def stabilityMeasurements (frames : List (Option Frame)) (scale : ℚ) :
    List Measurement :=
  frames.filterMap fun od => od.bind fun f => stabilityMeasurement f scale

/-- `interval = 1.0`. -/
def stabilityInterval : ℚ := 1

/-- The dict `test_stability` returns. -/
structure StabilityData where
  duration : ℕ
  total_measurements : ℕ
  success_rate : ℚ
  stability_metrics : List (String × ℝ)
  measurements : List Measurement

/-- `test_stability`: aggregate over all measurements, keep the first 50,
`success_rate = len(measurements) / int(duration / interval)` when any
measurement exists and 0 otherwise, empty metrics when none exists. -/
noncomputable def testStability (duration : ℕ) (frames : List (Option Frame)) (scale : ℚ) :
    StabilityData :=
  let ms := stabilityMeasurements frames scale
  let expected : ℕ := (⌊(duration : ℚ) / stabilityInterval⌋).toNat
  let rate : ℚ := if ms.isEmpty then 0 else (ms.length : ℚ) / (expected : ℚ)
  let metrics : List (String × ℝ) :=
    if ms.isEmpty then []
    else
      [("valid_pixels_mean", ((qmean (ms.map (fun m => (m.valid_pixels : ℚ))) : ℚ) : ℝ)),
       ("valid_pixels_std", qstd (ms.map (fun m => (m.valid_pixels : ℚ)))),
       ("mean_depth_mean", ((qmean (ms.map Measurement.mean_depth) : ℚ) : ℝ)),
       ("mean_depth_std", qstd (ms.map Measurement.mean_depth))]
  ⟨duration, ms.length, rate, metrics, ms.take 50⟩

/-- The values a fixed pixel index `k` takes across the captured stack. -/
def stackColumn (stack : List (List ℚ)) (k : ℕ) : List ℚ := stack.map (fun l => l.getD k 0)

/-- The pixel count of the stacked frames. -/
def stackSize (stack : List (List ℚ)) : ℕ := (stack.headD []).length

/-- `np.mean(depth_maps, axis=0)` at pixel `k`. -/
def pixelMean (stack : List (List ℚ)) (k : ℕ) : ℚ := qmean (stackColumn stack k)

/-- `np.std(depth_maps, axis=0)` at pixel `k`. -/
noncomputable def pixelStd (stack : List (List ℚ)) (k : ℕ) : ℝ := qstd (stackColumn stack k)

/-- The pixels whose stack mean is in the valid range:
`(mean_depth > 0) & (mean_depth < 65535)`. -/
def noiseValidKs (stack : List (List ℚ)) : List ℕ :=
  (List.range (stackSize stack)).filter fun k =>
    decide (0 < pixelMean stack k) && decide (pixelMean stack k < 65535)

/-- The stack of successfully captured frames, each flattened to floats. -/
def noiseStack (attempts : List (Option Frame)) : List (List ℚ) :=
  (attempts.filterMap id).map flatten

/-- The dict `test_noise` returns on success (`mean_depth_shape` omitted). -/
structure NoiseData where
  test_count : ℕ
  success_count : ℕ
  success_rate : ℚ
  noise_mean : ℝ
  noise_std : ℝ
  noise_max : ℝ
  valid_pixels_ratio : ℚ

/-- A noise return value: the `{'error': ...}` dict or the data dict. -/
inductive NoiseOutcome where
  | errorDict (msg : String)
  | dataDict (d : NoiseData)

/-- Whether the outcome is the `{'error': ...}` dict. -/
def NoiseOutcome.isError : NoiseOutcome → Bool
  | .errorDict _ => true
  | .dataDict _ => false

/-- `test_noise`: fewer than 2 captured frames is an error dict; otherwise
the mean/std/max of the per-pixel standard deviation over the pixels with
valid stack mean, scaled to millimeters (zeros when no pixel qualifies). -/
noncomputable def testNoise (count : ℕ) (attempts : List (Option Frame)) (scale : ℚ) :
    NoiseOutcome :=
  let captured := attempts.filterMap id
  if captured.length < 2 then .errorDict "有效数据不足，无法分析噪声"
  else
    let stack := noiseStack attempts
    let ks := noiseValidKs stack
    let stds := ks.map (pixelStd stack)
    let nm : ℝ := if ks = [] then 0 else rmean stds * ((scale : ℚ) : ℝ)
    let ns : ℝ := if ks = [] then 0 else rstd stds * ((scale : ℚ) : ℝ)
    let nx : ℝ := if ks = [] then 0 else rmax stds * ((scale : ℚ) : ℝ)
    let vr : ℚ := if 0 < stackSize stack then (ks.length : ℚ) / (stackSize stack : ℚ) else 0
    .dataDict ⟨count, captured.length, (captured.length : ℚ) / (count : ℚ), nm, ns, nx, vr⟩

/-- The 4x4 frame of raw value 1000 of the basic-sanity scenario. -/
def frame4x4 : Frame := List.replicate 4 (List.replicate 4 1000)

/-- The three per-point millimeter sample sequences of the repeatability
scenario. -/
def repScenarioSamples : List (List ℚ) := [[10, 10, 10, 10], [5, 6, 5, 6], [20, 20, 21, 20]]

/-- The `point_analysis` the analysis loop produces from the scenario's three
points. -/
noncomputable def repScenarioAnalysis : List PointAnalysis :=
  analyzeFrom 0 [(0, 0), (0, 1), (0, 2)] fun pt => repScenarioSamples.getD pt.2 []

/-! ### General lemmas about the embedded operations -/

/-- The mask test holds exactly on the open raw range `(0, 65535)`. -/
lemma validPixel_iff (v : ℕ) : validPixel v = true ↔ 0 < v ∧ v < 65535 := by
  simp [validPixel]

lemma mem_rowValid {qy qx y : ℕ} {row : List ℕ} :
    (qy, qx) ∈ rowValid y row ↔
      qy = y ∧ qx < row.length ∧ validPixel (row.getD qx 0) = true := by
  simp only [rowValid, List.mem_map, List.mem_filter, List.mem_range, Prod.mk.injEq]
  constructor
  · rintro ⟨x, ⟨hx, hv⟩, rfl, rfl⟩
    exact ⟨rfl, hx, hv⟩
  · rintro ⟨rfl, h2, h3⟩
    exact ⟨qx, ⟨h2, h3⟩, rfl, rfl⟩

lemma rowValid_nodup (y : ℕ) (row : List ℕ) : (rowValid y row).Nodup := by
  refine List.Nodup.map ?_ ((List.nodup_range _).filter _)
  intro a b hab
  exact (Prod.mk.injEq _ _ _ _ |>.mp hab).2

lemma mem_validCoords {qy qx : ℕ} {f : Frame} :
    (qy, qx) ∈ validCoords f ↔
      qy < f.length ∧ qx < (f.getD qy []).length ∧ validPixel (pixelAt f qy qx) = true := by
  unfold validCoords pixelAt
  rw [List.mem_flatten]
  constructor
  · rintro ⟨l, hl, hq⟩
    rcases List.mem_map.mp hl with ⟨y, hy, rfl⟩
    rcases mem_rowValid.mp hq with ⟨rfl, h2, h3⟩
    exact ⟨List.mem_range.mp hy, h2, h3⟩
  · rintro ⟨h1, h2, h3⟩
    exact ⟨rowValid qy (f.getD qy []), List.mem_map.mpr ⟨qy, List.mem_range.mpr h1, rfl⟩,
      mem_rowValid.mpr ⟨rfl, h2, h3⟩⟩

lemma validCoords_nodup (f : Frame) : (validCoords f).Nodup := by
  unfold validCoords
  rw [List.nodup_flatten]
  constructor
  · intro l hl
    rcases List.mem_map.mp hl with ⟨y, _, rfl⟩
    exact rowValid_nodup y _
  · rw [List.pairwise_map]
    refine (List.nodup_range f.length).imp ?_
    intro y1 y2 hne q hq1 hq2
    obtain ⟨qy, qx⟩ := q
    rcases mem_rowValid.mp hq1 with ⟨h1, -, -⟩
    rcases mem_rowValid.mp hq2 with ⟨h2, -, -⟩
    exact hne (h1 ▸ h2)

/-- Members of a point list selected by a without-replacement draw stay
pairwise distinct. -/
lemma nodup_map_getD {l : List (ℕ × ℕ)} {draw : List ℕ} (hl : l.Nodup) (hd : draw.Nodup)
    (hb : ∀ i ∈ draw, i < l.length) : (draw.map (fun i => l.getD i (0, 0))).Nodup := by
  refine List.Nodup.map_on ?_ hd
  intro i hi j hj hij
  have hi' := hb i hi
  have hj' := hb j hj
  rw [List.getD_eq_getElem l _ hi', List.getD_eq_getElem l _ hj'] at hij
  have h2 := List.nodup_iff_injective_getElem.mp hl
    (show (fun k : Fin l.length => l[k.1]) ⟨i, hi'⟩ = (fun k : Fin l.length => l[k.1]) ⟨j, hj'⟩
      from hij)
  exact congrArg Fin.val h2

lemma qmean_replicate {n : ℕ} (x : ℚ) (hn : n ≠ 0) : qmean (List.replicate n x) = x := by
  have h : (n : ℚ) ≠ 0 := Nat.cast_ne_zero.mpr hn
  simp only [qmean, List.sum_replicate, List.length_replicate, nsmul_eq_mul]
  exact mul_div_cancel_left₀ x h

lemma qvar_replicate (n : ℕ) (x : ℚ) : qvar (List.replicate n x) = 0 := by
  cases n with
  | zero => simp [qvar]
  | succ m =>
    have hm : qmean (List.replicate (m + 1) x) = x := qmean_replicate x (Nat.succ_ne_zero m)
    simp [qvar, hm, List.map_replicate, List.sum_replicate]

lemma qstd_replicate (n : ℕ) (x : ℚ) : qstd (List.replicate n x) = 0 := by
  simp [qstd, qvar_replicate, Real.sqrt_zero]

lemma rmean_of_all_zero {l : List ℝ} (h : ∀ x ∈ l, x = 0) : rmean l = 0 := by
  simp [rmean, List.sum_eq_zero h]

lemma rvar_of_all_zero {l : List ℝ} (h : ∀ x ∈ l, x = 0) : rvar l = 0 := by
  have hm := rmean_of_all_zero h
  have hz : ∀ y ∈ l.map (fun x => (x - rmean l) ^ 2), y = 0 := by
    intro y hy
    rcases List.mem_map.mp hy with ⟨x, hx, rfl⟩
    rw [h x hx, hm]
    ring
  simp [rvar, List.sum_eq_zero hz]

lemma rstd_of_all_zero {l : List ℝ} (h : ∀ x ∈ l, x = 0) : rstd l = 0 := by
  simp [rstd, rvar_of_all_zero h, Real.sqrt_zero]

lemma foldl_max_zero (l : List ℝ) (h : ∀ x ∈ l, x = 0) : l.foldl max 0 = 0 := by
  induction l with
  | nil => rfl
  | cons a t ih =>
    have ha : a = 0 := h a (by simp)
    have ht : ∀ x ∈ t, x = 0 := fun x hx => h x (by simp [hx])
    simp [List.foldl_cons, ha, ih ht]

lemma rmax_of_all_zero {l : List ℝ} (h : ∀ x ∈ l, x = 0) : rmax l = 0 := by
  cases l with
  | nil => rfl
  | cons a t =>
    have ha : a = 0 := h a (by simp)
    have ht : ∀ x ∈ t, x = 0 := fun x hx => h x (by simp [hx])
    simp only [rmax, ha]
    exact foldl_max_zero t ht

/-- The analysis loop appends nothing exactly when every point has fewer than
2 recorded samples. -/
lemma analyzeFrom_eq_nil {i : ℕ} {pts : List (ℕ × ℕ)} {g : (ℕ × ℕ) → List ℚ} :
    analyzeFrom i pts g = [] ↔ ∀ pt ∈ pts, (g pt).length < 2 := by
  induction pts generalizing i with
  | nil => simp [analyzeFrom]
  | cons pt rest ih =>
    by_cases h : 2 ≤ (g pt).length
    · rw [show analyzeFrom i (pt :: rest) g
          = (⟨i, (pt.2, pt.1), (g pt).length, qmean (g pt), qstd (g pt), qmaxAbsDev (g pt),
              qmax (g pt) - qmin (g pt)⟩ : PointAnalysis) :: analyzeFrom (i + 1) rest g
        from by simp [analyzeFrom, analyzePoint, h]]
      constructor
      · intro hc
        exact absurd hc (List.cons_ne_nil _ _)
      · intro hall
        exact absurd (hall pt (by simp)) (by omega)
    · rw [show analyzeFrom i (pt :: rest) g = analyzeFrom (i + 1) rest g
        from by simp [analyzeFrom, analyzePoint, h], ih]
      constructor
      · intro hall q hq
        rcases List.mem_cons.mp hq with rfl | hq'
        · omega
        · exact hall q hq'
      · intro hall q hq
        exact hall q (List.mem_cons_of_mem _ hq)

/-- Every entry the analysis loop keeps has at least 2 samples behind it. -/
lemma analyzeFrom_count {i : ℕ} {pts : List (ℕ × ℕ)} {g : (ℕ × ℕ) → List ℚ} :
    ∀ p ∈ analyzeFrom i pts g, 2 ≤ p.measurement_count := by
  induction pts generalizing i with
  | nil =>
    intro p hp
    simp [analyzeFrom] at hp
  | cons pt rest ih =>
    intro p hp
    by_cases h : 2 ≤ (g pt).length
    · rw [show analyzeFrom i (pt :: rest) g
          = (⟨i, (pt.2, pt.1), (g pt).length, qmean (g pt), qstd (g pt), qmaxAbsDev (g pt),
              qmax (g pt) - qmin (g pt)⟩ : PointAnalysis) :: analyzeFrom (i + 1) rest g
        from by simp [analyzeFrom, analyzePoint, h]] at hp
      rcases List.mem_cons.mp hp with rfl | hp'
      · simpa using h
      · exact ih _ hp'
    · rw [show analyzeFrom i (pt :: rest) g = analyzeFrom (i + 1) rest g
        from by simp [analyzeFrom, analyzePoint, h]] at hp
      exact ih _ hp

lemma filterMap_id_replicate_some {α : Type} (n : ℕ) (a : α) :
    (List.replicate n (some a)).filterMap id = List.replicate n a := by
  induction n with
  | zero => rfl
  | succ m ih => simp [List.replicate_succ, List.filterMap_cons, ih]

/-- When no captured frame has a valid pixel, the stability loop records no
measurement. -/
lemma stabilityMeasurements_eq_nil {frames : List (Option Frame)} {scale : ℚ}
    (h : ∀ f : Frame, some f ∈ frames → validValues f = []) :
    stabilityMeasurements frames scale = [] := by
  rw [stabilityMeasurements, List.filterMap_eq_nil_iff]
  intro od hod
  cases od with
  | none => rfl
  | some f =>
    show stabilityMeasurement f scale = none
    rw [stabilityMeasurement, if_pos (h f hod)]

lemma mem_validCoords_fields {q : ℕ × ℕ} {f : Frame} (hq : q ∈ validCoords f) :
    q.1 < f.length ∧ q.2 < (f.getD q.1 []).length ∧ validPixel (pixelAt f q.1 q.2) = true := by
  obtain ⟨qy, qx⟩ := q
  exact mem_validCoords.mp hq

/-! ### Claim theorems -/

/-- C1: with camera setup succeeded, `run_all_tests` returns exactly one
TestResult per enabled procedure, in execution order — the result list is the
image of the enabled (name, body) list under `runTest`, so every entry
depends only on its own procedure's behaviour; in particular a procedure that
raises with message `msg` yields the failed result carrying exactly that
message, while all other entries are unaffected. -/
theorem harness_one_result_per_enabled {α : Type} (p : TestParams)
    (basic fr rep st no : Except String α) :
    runAllTests true p basic fr rep st no
      = (enabledProcs p basic fr rep st no).map (fun q => runTest q.1 q.2) ∧
    ∀ (k : ℕ) (name : String) (msg : String),
      (enabledProcs p basic fr rep st no)[k]? = some (name, Except.error msg) →
      (runAllTests true p basic fr rep st no)[k]?
        = some ⟨name, false, none, some msg⟩ := by
  have hmap : runAllTests true p basic fr rep st no
      = (enabledProcs p basic fr rep st no).map (fun q => runTest q.1 q.2) := by
    unfold runAllTests enabledProcs
    by_cases h1 : 0 < p.frame_rate_test_duration <;>
      by_cases h2 : 0 < p.stability_test_duration <;>
        by_cases h3 : 0 < p.noise_test_count <;>
          simp [h1, h2, h3, runTest]
  refine ⟨hmap, ?_⟩
  intro k name msg hk
  rw [hmap, List.getElem?_map, hk]
  rfl

/-- C1 witness: the default configuration (all five procedures enabled) with
the repeatability body raising "boom": its entry, index 2, is the failed
result with that message. -/
theorem harness_one_result_per_enabled_witness :
    (runAllTests true defaultTestParams (Except.ok 1) (Except.ok 2)
        (Except.error "boom") (Except.ok 4) (Except.ok 5) : List (TestResult ℕ))[2]?
      = some ⟨"重复精度测试", false, none, some "boom"⟩ :=
  (harness_one_result_per_enabled defaultTestParams (Except.ok 1) (Except.ok 2)
    (Except.error "boom") (Except.ok 4) (Except.ok 5)).2 2 "重复精度测试" "boom" rfl

/-- C4: a TestResult with success=false carries the untouched empty data and
a set error message; one with success=true carries no error message. -/
theorem result_invariant {α : Type} (name : String) (body : Except String α) :
    ((runTest name body).success = false →
        (runTest name body).data = none ∧ (runTest name body).error_message ≠ none) ∧
    ((runTest name body).success = true → (runTest name body).error_message = none) := by
  cases body <;> simp [runTest]

/-- C4 witness: a raising body at a concrete input. -/
theorem result_invariant_witness :
    (runTest "基础功能测试" (Except.error "fail" : Except String ℕ)).data = none ∧
    (runTest "基础功能测试" (Except.error "fail" : Except String ℕ)).error_message ≠ none :=
  (result_invariant "基础功能测试" (Except.error "fail" : Except String ℕ)).1 rfl

/-- C10: `run_test` records success exactly when the body returned normally;
a normal return is recorded with the returned dict as data and no error
message, and a raised exception gives success=false with its message.  In
particular the error-keyed dicts that repeatability (no seed frame) and noise
(fewer than 2 captured frames) return normally are recorded as successes. -/
theorem run_test_success_iff_normal_return {α : Type} (name : String)
    (body : Except String α) :
    ((runTest name body).success = true ↔ ∃ d, body = Except.ok d) ∧
    (∀ d, body = Except.ok d → runTest name body = ⟨name, true, some d, none⟩) ∧
    (∀ m, body = Except.error m →
      (runTest name body).success = false ∧ (runTest name body).error_message = some m) ∧
    testRepeatability 5 none [] [] 1 = RepeatOutcome.errorDict "无法获取初始深度图像" ∧
    testNoise 5 [] 1 = NoiseOutcome.errorDict "有效数据不足，无法分析噪声" ∧
    (runTest "重复精度测试" (Except.ok (testRepeatability 5 none [] [] 1))).success = true ∧
    (runTest "重复精度测试"
      (Except.ok (testRepeatability 5 none [] [] 1))).error_message = none := by
  refine ⟨?_, ?_, ?_, rfl, rfl, rfl, rfl⟩
  · cases body <;> simp [runTest]
  · rintro d rfl
    rfl
  · rintro m rfl
    exact ⟨rfl, rfl⟩

/-- C10 witness: a normally returning body at a concrete input. -/
theorem run_test_success_iff_normal_return_witness :
    runTest "噪声测试" (Except.ok (3 : ℕ)) = ⟨"噪声测试", true, some 3, none⟩ :=
  (run_test_success_iff_normal_return "噪声测试" (Except.ok (3 : ℕ))).2.1 3 rfl

/-- C2 counterexample: a run in which zero selected points accumulated 2
valid samples (the seed frame has one valid pixel but the capture loop yields
no frames), so `test_repeatability` returns its error dict — a normal return
— and the recorded TestResult has success=true, where the claim requires a
failure. -/
theorem repeat_zero_points_recorded_success :
    (testRepeatability 5 (some [[1000]]) [] [] 1).isError = true ∧
    (runTest "重复精度测试"
      (Except.ok (testRepeatability 5 (some [[1000]]) [] [] 1))).success = true :=
  ⟨rfl, rfl⟩

/-- C2 (amended): the repeatability procedure returns the error dict — which
`run_test` records as a success=true TestResult holding that dict — if and
only if zero selected points accumulated at least 2 valid samples; every
`point_analysis` entry rests on at least 2 samples (points with fewer are
excluded), and the success dict preserves every selected point's raw sample
sequence. -/
theorem repeat_error_outcome_iff (count : ℕ) (seed : Option Frame) (draw : List ℕ)
    (frames : List (Option Frame)) (scale : ℚ) :
    ((testRepeatability count seed draw frames scale).isError = true ↔
      ∀ pt ∈ selectedPoints seed draw, (pointSamples frames scale pt).length < 2) ∧
    (∀ d, testRepeatability count seed draw frames scale = RepeatOutcome.dataDict d →
      (∀ p ∈ d.point_analysis, 2 ≤ p.measurement_count) ∧
      d.raw_depth_data = (selectedPoints seed draw).map (pointSamples frames scale)) := by
  cases seed with
  | none =>
    constructor
    · simp [testRepeatability, RepeatOutcome.isError, selectedPoints]
    · intro d hd
      exact absurd hd (by simp [testRepeatability])
  | some f =>
    by_cases hc : validCoords f = []
    · have hsel : selectedPoints (some f) draw = [] := by
        simp [selectedPoints, targetPoints, hc]
      constructor
      · rw [show testRepeatability count (some f) draw frames scale
            = RepeatOutcome.errorDict "未找到有效深度区域" from by simp [testRepeatability, hc]]
        simp [RepeatOutcome.isError, hsel]
      · intro d hd
        exact absurd hd (by simp [testRepeatability, hc])
    · by_cases ha : analyzeFrom 0 (selectedPoints (some f) draw) (pointSamples frames scale) = []
      · have herr : testRepeatability count (some f) draw frames scale
            = RepeatOutcome.errorDict "没有足够的有效测试点数据" := by
          simp [testRepeatability, hc, ha]
        constructor
        · rw [herr]
          exact iff_of_true rfl (analyzeFrom_eq_nil.mp ha)
        · intro d hd
          rw [herr] at hd
          exact absurd hd (by simp)
      · have hlen : ¬ (analyzeFrom 0 (selectedPoints (some f) draw)
            (pointSamples frames scale)).length = 0 := by
          have h0 := List.length_pos.mpr ha
          omega
        have hdata : testRepeatability count (some f) draw frames scale
            = RepeatOutcome.dataDict ⟨count, (frames.filterMap id).length,
                ((frames.filterMap id).length : ℚ) / (count : ℚ), selectedTarget (some f),
                (analyzeFrom 0 (selectedPoints (some f) draw) (pointSamples frames scale)).length,
                overallStats (analyzeFrom 0 (selectedPoints (some f) draw)
                  (pointSamples frames scale)),
                analyzeFrom 0 (selectedPoints (some f) draw) (pointSamples frames scale),
                (selectedPoints (some f) draw).map (fun p => (p.2, p.1)),
                (selectedPoints (some f) draw).map (pointSamples frames scale)⟩ := by
          simp [testRepeatability, hc, hlen]
        constructor
        · rw [hdata]
          refine iff_of_false (by simp [RepeatOutcome.isError]) ?_
          intro hall
          exact ha (analyzeFrom_eq_nil.mpr hall)
        · intro d hd
          rw [hdata] at hd
          injection hd with h
          subst h
          exact ⟨fun p hp => analyzeFrom_count p hp, rfl⟩

/-- C2 witness: with no seed frame there are no selected points, so the
procedure ends in the error dict. -/
theorem repeat_error_outcome_iff_witness :
    (testRepeatability 7 none [] [] 1).isError = true :=
  (repeat_error_outcome_iff 7 none [] [] 1).1.mpr (by simp [selectedPoints])

/-- C9: selection from a seed frame with a non-empty valid region: with at
least 25 valid pixels and a without-replacement draw of 25 indices, exactly
25 pairwise-distinct points are selected, each a pixel valid in the seed
frame, and the target stays 25; with fewer valid pixels, every valid pixel is
used and the target becomes their number. -/
theorem repeat_point_selection (f : Frame) (draw : List ℕ) (hne : validCoords f ≠ []) :
    (targetPoints ≤ (validCoords f).length →
      draw.Nodup → draw.length = targetPoints →
      (∀ i ∈ draw, i < (validCoords f).length) →
      (selectedPoints (some f) draw).length = 25 ∧
      (selectedPoints (some f) draw).Nodup ∧
      (∀ q ∈ selectedPoints (some f) draw,
        q.1 < f.length ∧ q.2 < (f.getD q.1 []).length ∧
          validPixel (pixelAt f q.1 q.2) = true) ∧
      selectedTarget (some f) = 25) ∧
    ((validCoords f).length < targetPoints →
      selectedPoints (some f) draw = validCoords f ∧
      selectedTarget (some f) = (validCoords f).length) := by
  constructor
  · intro hge hd hlen hb
    have hsel : selectedPoints (some f) draw
        = draw.map (fun i => (validCoords f).getD i (0, 0)) := by
      simp [selectedPoints, hge]
    refine ⟨?_, ?_, ?_, ?_⟩
    · rw [hsel, List.length_map, hlen]
      rfl
    · rw [hsel]
      exact nodup_map_getD (validCoords_nodup f) hd hb
    · intro q hq
      rw [hsel] at hq
      rcases List.mem_map.mp hq with ⟨i, hi, rfl⟩
      have hilt := hb i hi
      have hmem : (validCoords f).getD i (0, 0) ∈ validCoords f := by
        rw [List.getD_eq_getElem _ _ hilt]
        exact List.getElem_mem _
      exact mem_validCoords_fields hmem
    · simp only [selectedTarget]
      rw [if_pos hge]
      rfl
  · intro hlt
    have hnot : ¬ targetPoints ≤ (validCoords f).length := by omega
    exact ⟨by simp [selectedPoints, hnot], by simp [selectedTarget, hnot]⟩

/-- C9 witness: a 5x5 all-valid frame (25 valid pixels) with the draw
0,...,24. -/
theorem repeat_point_selection_witness :
    (selectedPoints (some (List.replicate 5 (List.replicate 5 1000)))
        (List.range 25)).length = 25 ∧
    (selectedPoints (some (List.replicate 5 (List.replicate 5 1000)))
        (List.range 25)).Nodup ∧
    selectedTarget (some (List.replicate 5 (List.replicate 5 1000))) = 25 := by
  have h := (repeat_point_selection (List.replicate 5 (List.replicate 5 1000)) (List.range 25)
    (by decide)).1 (by decide) (by decide) (by decide) (by decide)
  exact ⟨h.1, h.2.1, h.2.2.2⟩

/-- The data dict `test_noise` produces once at least 2 frames were captured
and some pixel's stack mean is valid. -/
lemma testNoise_eq (count : ℕ) (attempts : List (Option Frame)) (scale : ℚ)
    (h : ¬ (attempts.filterMap id).length < 2)
    (hk : ¬ noiseValidKs (noiseStack attempts) = []) :
    testNoise count attempts scale = NoiseOutcome.dataDict
      ⟨count, (attempts.filterMap id).length,
        ((attempts.filterMap id).length : ℚ) / (count : ℚ),
        rmean ((noiseValidKs (noiseStack attempts)).map (pixelStd (noiseStack attempts)))
          * ((scale : ℚ) : ℝ),
        rstd ((noiseValidKs (noiseStack attempts)).map (pixelStd (noiseStack attempts)))
          * ((scale : ℚ) : ℝ),
        rmax ((noiseValidKs (noiseStack attempts)).map (pixelStd (noiseStack attempts)))
          * ((scale : ℚ) : ℝ),
        if 0 < stackSize (noiseStack attempts) then
          ((noiseValidKs (noiseStack attempts)).length : ℚ) / (stackSize (noiseStack attempts) : ℚ)
        else 0⟩ := by
  simp [testNoise, h, hk]

/-- C3 counterexample: a noise run over two identical captured frames with no
valid pixel (raw value 0 everywhere).  The claim requires a distinct "no
valid region" failure, but the code returns the normal data dict (with zero
noise statistics). -/
theorem noise_no_valid_region_not_failure :
    (testNoise 2 [some [[0]], some [[0]]] 1).isError = false := rfl

/-- C3 (amended): repeatability reports the distinct no-valid-region error
dict when the seed frame has no valid pixel; stability with no valid pixel in
any acquired frame returns normally with empty stability_metrics and
success_rate 0; noise's valid region is the set of pixels whose ACROSS-STACK
MEAN lies in (0, 65535) — with at least 2 captured frames and that mean-mask
empty it returns normally with noise_mean = noise_std = noise_max = 0.  The
per-frame no-valid-pixel premise does not bound noise's output: the last
conjunct shows two captured frames of raw 0 and raw 65535 — every pixel of
every frame invalid — whose stack mean 32767.5 passes the mask, so the run
returns a normal dict with noise_max = 32767.5 ≠ 0.  In each guarded case
the statistics over the empty region are replaced by the explicit fallbacks
instead of being computed (no NaN, no division by zero). -/
theorem no_valid_region_policy :
    (∀ (count : ℕ) (f : Frame) (draw : List ℕ) (frames : List (Option Frame)) (scale : ℚ),
      validCoords f = [] →
      testRepeatability count (some f) draw frames scale
        = RepeatOutcome.errorDict "未找到有效深度区域") ∧
    (∀ (duration : ℕ) (frames : List (Option Frame)) (scale : ℚ),
      (∀ f : Frame, some f ∈ frames → validValues f = []) →
      (testStability duration frames scale).stability_metrics = [] ∧
      (testStability duration frames scale).success_rate = 0) ∧
    (∀ (count : ℕ) (attempts : List (Option Frame)) (scale : ℚ),
      2 ≤ (attempts.filterMap id).length →
      noiseValidKs (noiseStack attempts) = [] →
      ∃ d, testNoise count attempts scale = NoiseOutcome.dataDict d ∧
        d.noise_mean = 0 ∧ d.noise_std = 0 ∧ d.noise_max = 0) ∧
    (validValues [[0]] = [] ∧ validValues [[65535]] = [] ∧
      ∃ d, testNoise 2 [some [[0]], some [[65535]]] 1 = NoiseOutcome.dataDict d ∧
        d.noise_max = 65535 / 2 ∧ d.noise_max ≠ 0) := by
  refine ⟨?_, ?_, ?_, ?_⟩
  · intro count f draw frames scale hc
    simp [testRepeatability, hc]
  · intro duration frames scale h
    have hnil := @stabilityMeasurements_eq_nil frames scale h
    constructor <;> simp [testStability, hnil]
  · intro count attempts scale h2 hks
    have hlt : ¬ (attempts.filterMap id).length < 2 := by omega
    refine ⟨⟨count, (attempts.filterMap id).length,
        ((attempts.filterMap id).length : ℚ) / (count : ℚ), 0, 0, 0,
        if 0 < stackSize (noiseStack attempts) then
          ((noiseValidKs (noiseStack attempts)).length : ℚ)
            / (stackSize (noiseStack attempts) : ℚ)
        else 0⟩, ?_, rfl, rfl, rfl⟩
    simp [testNoise, hlt, hks]
  · refine ⟨rfl, rfl, ?_⟩
    have hstack : noiseStack [some [[0]], some [[65535]]] = [[(0 : ℚ)], [(65535 : ℚ)]] := by
      norm_num [noiseStack, flatten, List.filterMap_cons]
    have hmean : pixelMean [[(0 : ℚ)], [(65535 : ℚ)]] 0 = 65535 / 2 := by
      norm_num [pixelMean, stackColumn, qmean]
    have hks : noiseValidKs (noiseStack [some [[0]], some [[65535]]]) = [0] := by
      rw [hstack]
      norm_num [noiseValidKs, stackSize, hmean, List.range_succ]
    have hvar : qvar [(0 : ℚ), 65535] = 4294836225 / 4 := by
      norm_num [qvar, qmean]
    have hstd : pixelStd (noiseStack [some [[0]], some [[65535]]]) 0 = 65535 / 2 := by
      rw [pixelStd, hstack,
        show stackColumn [[(0 : ℚ)], [(65535 : ℚ)]] 0 = [(0 : ℚ), 65535] from rfl,
        qstd, hvar, show ((4294836225 / 4 : ℚ) : ℝ) = (65535 / 2 : ℝ) ^ 2 by norm_num]
      exact Real.sqrt_sq (by norm_num)
    have hlen : ¬ (([some [[0]], some [[65535]]] : List (Option Frame)).filterMap id).length
        < 2 := by decide
    refine ⟨_, testNoise_eq 2 [some [[0]], some [[65535]]] 1 hlen (by rw [hks]; simp),
      ?_, ?_⟩
    · rw [hks]
      simp only [List.map_cons, List.map_nil, hstd, rmax, List.foldl_nil]
      norm_num
    · rw [hks]
      simp only [List.map_cons, List.map_nil, hstd, rmax, List.foldl_nil]
      norm_num

/-- C3 witness: a seed frame whose only pixel is raw 0 (invalid). -/
theorem no_valid_region_policy_witness :
    testRepeatability 3 (some [[0]]) [] [] 1
      = RepeatOutcome.errorDict "未找到有效深度区域" :=
  no_valid_region_policy.1 3 [[0]] [] [] 1 (by decide)

/-- C7: a noise stack of n ≥ 2 identical captured frames with at least one
valid-mean pixel has per-pixel standard deviation exactly 0 at every pixel,
and the reported noise_mean, noise_std and noise_max are all 0. -/
theorem noise_identical_frames_zero (f : Frame) (n count : ℕ) (scale : ℚ)
    (h2 : 2 ≤ n) (hv : noiseValidKs (noiseStack (List.replicate n (some f))) ≠ []) :
    (∀ k, pixelStd (noiseStack (List.replicate n (some f))) k = 0) ∧
    ∃ d, testNoise count (List.replicate n (some f)) scale = NoiseOutcome.dataDict d ∧
      d.noise_mean = 0 ∧ d.noise_std = 0 ∧ d.noise_max = 0 := by
  have hstack : noiseStack (List.replicate n (some f)) = List.replicate n (flatten f) := by
    rw [noiseStack, filterMap_id_replicate_some, List.map_replicate]
  have hstd : ∀ k, pixelStd (noiseStack (List.replicate n (some f))) k = 0 := by
    intro k
    rw [pixelStd, hstack, show stackColumn (List.replicate n (flatten f)) k
        = List.replicate n ((flatten f).getD k 0) from List.map_replicate]
    exact qstd_replicate n _
  refine ⟨hstd, ?_⟩
  have hlen : ¬ ((List.replicate n (some f) : List (Option Frame)).filterMap id).length < 2 := by
    rw [filterMap_id_replicate_some, List.length_replicate]
    omega
  have hzero : ∀ x ∈ (noiseValidKs (noiseStack (List.replicate n (some f)))).map
      (pixelStd (noiseStack (List.replicate n (some f)))), x = 0 := by
    intro x hx
    rcases List.mem_map.mp hx with ⟨k, _, rfl⟩
    exact hstd k
  refine ⟨_, testNoise_eq count (List.replicate n (some f)) scale hlen hv, ?_, ?_, ?_⟩
  · rw [rmean_of_all_zero hzero]
    exact zero_mul _
  · rw [rstd_of_all_zero hzero]
    exact zero_mul _
  · rw [rmax_of_all_zero hzero]
    exact zero_mul _

/-- C7 witness: two identical single-pixel frames of raw 1000; the per-pixel
standard deviation at pixel 0 is 0. -/
theorem noise_identical_frames_zero_witness :
    pixelStd (noiseStack (List.replicate 2 (some [[1000]]))) 0 = 0 := by
  have hstack : noiseStack (List.replicate 2 (some [[1000]])) = [[(1000 : ℚ)], [(1000 : ℚ)]] := by
    norm_num [noiseStack, flatten, List.replicate, List.filterMap_cons]
  have hmean : pixelMean [[(1000 : ℚ)], [(1000 : ℚ)]] 0 = 1000 := by
    norm_num [pixelMean, stackColumn, qmean]
  have hks : noiseValidKs (noiseStack (List.replicate 2 (some [[1000]]))) ≠ [] := by
    rw [hstack]
    norm_num [noiseValidKs, stackSize, hmean, List.range_succ]
  exact (noise_identical_frames_zero [[1000]] 2 2 1 (by omega) hks).1 0

/-- C8: the stability success rate always equals the measurement count over
floor(duration/interval) — also in the zero-measurement branch, where the
code hard-codes 0; and with no frame carrying a valid region the metrics
mapping is empty and the rate is 0. -/
theorem stability_rate_and_empty (duration : ℕ) (frames : List (Option Frame)) (scale : ℚ) :
    (testStability duration frames scale).success_rate
      = ((testStability duration frames scale).total_measurements : ℚ)
          / (((⌊(duration : ℚ) / stabilityInterval⌋).toNat : ℕ) : ℚ) ∧
    ((∀ f : Frame, some f ∈ frames → validValues f = []) →
      (testStability duration frames scale).stability_metrics = [] ∧
      (testStability duration frames scale).success_rate = 0) := by
  constructor
  · cases hms : stabilityMeasurements frames scale with
    | nil => simp [testStability, hms]
    | cons a t => simp [testStability, hms]
  · intro h
    have hnil := @stabilityMeasurements_eq_nil frames scale h
    constructor <;> simp [testStability, hnil]

/-- C8 witness: a run whose only frames are an all-invalid frame and a
timeout. -/
theorem stability_rate_and_empty_witness :
    (testStability 10 [some [[0]], none] 1).stability_metrics = [] ∧
    (testStability 10 [some [[0]], none] 1).success_rate = 0 :=
  (stability_rate_and_empty 10 [some [[0]], none] 1).2 (by
    intro f hf
    simp only [List.mem_cons, List.not_mem_nil, or_false] at hf
    rcases hf with hf | hf
    · rw [Option.some.injEq] at hf
      subst hf
      rfl
    · exact absurd hf (by simp))

lemma qstd_eq_zero_of_qvar_eq_zero {l : List ℚ} (h : qvar l = 0) : qstd l = 0 := by
  rw [qstd, h]
  simp

lemma foldl_max_replicate (m : ℕ) (x : ℚ) : (List.replicate m x).foldl max x = x := by
  induction m with
  | zero => rfl
  | succ k ih => simp [List.replicate_succ, List.foldl_cons, max_self, ih]

lemma foldl_min_replicate (m : ℕ) (x : ℚ) : (List.replicate m x).foldl min x = x := by
  induction m with
  | zero => rfl
  | succ k ih => simp [List.replicate_succ, List.foldl_cons, min_self, ih]

lemma qmax_replicate {n : ℕ} (x : ℚ) (hn : n ≠ 0) : qmax (List.replicate n x) = x := by
  cases n with
  | zero => exact absurd rfl hn
  | succ m =>
    simp only [List.replicate_succ, qmax]
    exact foldl_max_replicate m x

lemma qmin_replicate {n : ℕ} (x : ℚ) (hn : n ≠ 0) : qmin (List.replicate n x) = x := by
  cases n with
  | zero => exact absurd rfl hn
  | succ m =>
    simp only [List.replicate_succ, qmin]
    exact foldl_min_replicate m x

lemma validValues_frame4x4 : validValues frame4x4 = List.replicate 16 (1000 : ℚ) := by
  norm_num [frame4x4, validValues, validPixel, List.replicate]

/-- The basic-sanity scenario: 4x4 raw 1000 at scale 0.01 gives 16/16 valid
pixels at exactly 10 mm with zero spread. -/
lemma depthStats_frame4x4 :
    depthStats frame4x4 (1 / 100) = some ⟨16, 16, 1, 10, 10, 10, 0⟩ := by
  have hne : ¬ validValues frame4x4 = [] := by
    rw [validValues_frame4x4]
    simp
  have hmm : (validValues frame4x4).map (fun v => v * (1 / 100))
      = List.replicate 16 (10 : ℚ) := by
    rw [validValues_frame4x4, List.map_replicate]
    norm_num
  have hcount : validCount frame4x4 = 16 := by decide
  have htotal : totalCount frame4x4 = 16 := by decide
  simp only [depthStats, if_neg hne, hmm, Option.some.injEq]
  rw [hcount, htotal, qmin_replicate (10 : ℚ) (by omega), qmax_replicate (10 : ℚ) (by omega),
    qmean_replicate (10 : ℚ) (by omega), qstd_replicate]
  norm_num

/-- C5: the basic-sanity validity mask holds exactly on raw values in
(0, 65535); the reported valid ratio is the mask's true count over the total
pixel count; and the 4x4 scenario (raw 1000 everywhere, scale factor 0.01)
reports min=max=mean=10.0 mm, std=0 and valid ratio 1. -/
theorem basic_sanity_mask_and_stats (f : Frame) (scale : ℚ) (st : DepthStats)
    (h : depthStats f scale = some st) :
    (∀ v : ℕ, validPixel v = true ↔ 0 < v ∧ v < 65535) ∧
    st.valid_ratio = (validCount f : ℚ) / (totalCount f : ℚ) ∧
    (testBasicFunctionality (some frame4x4) (1 / 100)).depth_stats
      = some ⟨16, 16, 1, 10, 10, 10, 0⟩ := by
  refine ⟨validPixel_iff, ?_, depthStats_frame4x4⟩
  by_cases hne : validValues f = []
  · rw [depthStats, if_pos hne] at h
    exact absurd h (by simp)
  · simp only [depthStats, if_neg hne, Option.some.injEq] at h
    rw [← h]

/-- C5 witness: the scenario stats record satisfies the ratio equation for
the scenario frame. -/
theorem basic_sanity_mask_and_stats_witness :
    (⟨16, 16, 1, 10, 10, 10, 0⟩ : DepthStats).valid_ratio
      = (validCount frame4x4 : ℚ) / (totalCount frame4x4 : ℚ) :=
  (basic_sanity_mask_and_stats frame4x4 (1 / 100) ⟨16, 16, 1, 10, 10, 10, 0⟩
    depthStats_frame4x4).2.1

lemma qstd_scenario2 : qstd [(5 : ℚ), 6, 5, 6] = 1 / 2 := by
  have h : qvar [(5 : ℚ), 6, 5, 6] = 1 / 4 := by norm_num [qvar, qmean]
  rw [qstd, h, show (((1 / 4 : ℚ)) : ℝ) = (1 / 2 : ℝ) ^ 2 by norm_num]
  exact Real.sqrt_sq (by norm_num)

lemma qstd_scenario3_bounds :
    (433 / 1000 : ℝ) < qstd [(20 : ℚ), 20, 21, 20] ∧
    qstd [(20 : ℚ), 20, 21, 20] < 4331 / 10000 := by
  have h : qvar [(20 : ℚ), 20, 21, 20] = 3 / 16 := by norm_num [qvar, qmean]
  rw [qstd, h, show (((3 / 16 : ℚ)) : ℝ) = 3 / 16 by norm_num]
  constructor
  · rw [Real.lt_sqrt (by norm_num)]
    norm_num
  · rw [Real.sqrt_lt' (by norm_num)]
    norm_num

lemma repScenarioAnalysis_eq :
    repScenarioAnalysis = [
      ⟨0, (0, 0), 4, qmean [10, 10, 10, 10], qstd [10, 10, 10, 10],
        qmaxAbsDev [10, 10, 10, 10], qmax [10, 10, 10, 10] - qmin [10, 10, 10, 10]⟩,
      ⟨1, (1, 0), 4, qmean [5, 6, 5, 6], qstd [5, 6, 5, 6],
        qmaxAbsDev [5, 6, 5, 6], qmax [5, 6, 5, 6] - qmin [5, 6, 5, 6]⟩,
      ⟨2, (2, 0), 4, qmean [20, 20, 21, 20], qstd [20, 20, 21, 20],
        qmaxAbsDev [20, 20, 21, 20], qmax [20, 20, 21, 20] - qmin [20, 20, 21, 20]⟩] := by
  simp [repScenarioAnalysis, analyzeFrom, analyzePoint, repScenarioSamples]

/-- C6 counterexample: the aggregate dict of the scenario's analysis has no
"max_depth_range" entry — the code does not aggregate the max of the
per-point range metric, although the claim says mean/std/max are aggregated
for each metric. -/
theorem overall_stats_missing_range_max :
    List.lookup "max_depth_range" (overallStats repScenarioAnalysis) = none := by
  simp [overallStats, List.lookup]

/-- C6 (amended): each qualifying point gets mean, population standard
deviation, maximum absolute deviation and range of its sample sequence; the
aggregate dict holds mean/std/max of the per-point std and of the per-point
max-deviation but only mean/std of the per-point range; on the 3-point
scenario the per-point stds are 0, 0.5 and ≈0.433 (in (0.433, 0.4331)) and
the aggregate mean_depth_std is ≈0.311 (in (0.311, 0.3111)). -/
theorem repeat_scenario_metrics :
    repScenarioAnalysis.map PointAnalysis.std_depth
        = [qstd [10, 10, 10, 10], qstd [5, 6, 5, 6], qstd [20, 20, 21, 20]] ∧
    qstd [(10 : ℚ), 10, 10, 10] = 0 ∧
    qstd [(5 : ℚ), 6, 5, 6] = 1 / 2 ∧
    (433 / 1000 : ℝ) < qstd [(20 : ℚ), 20, 21, 20] ∧
    qstd [(20 : ℚ), 20, 21, 20] < 4331 / 10000 ∧
    List.lookup "mean_depth_std" (overallStats repScenarioAnalysis)
        = some (rmean (repScenarioAnalysis.map PointAnalysis.std_depth)) ∧
    (311 / 1000 : ℝ) < rmean (repScenarioAnalysis.map PointAnalysis.std_depth) ∧
    rmean (repScenarioAnalysis.map PointAnalysis.std_depth) < 3111 / 10000 ∧
    (overallStats repScenarioAnalysis).map Prod.fst
        = ["mean_depth_std", "std_depth_std", "max_depth_std", "mean_depth_deviation",
           "std_depth_deviation", "max_depth_deviation", "mean_depth_range",
           "std_depth_range"] := by
  have hzero : qstd [(10 : ℚ), 10, 10, 10] = 0 :=
    qstd_eq_zero_of_qvar_eq_zero (by norm_num [qvar, qmean])
  have hmap : repScenarioAnalysis.map PointAnalysis.std_depth
      = [qstd [10, 10, 10, 10], qstd [5, 6, 5, 6], qstd [20, 20, 21, 20]] := by
    rw [repScenarioAnalysis_eq]
    rfl
  have hb := qstd_scenario3_bounds
  have hmean_eq : rmean (repScenarioAnalysis.map PointAnalysis.std_depth)
      = (0 + (1 / 2 + (qstd [(20 : ℚ), 20, 21, 20] + 0))) / 3 := by
    rw [hmap, rmean]
    simp [hzero, qstd_scenario2]
  refine ⟨hmap, hzero, qstd_scenario2, hb.1, hb.2, ?_, ?_, ?_, ?_⟩
  · simp [overallStats, List.lookup]
  · rw [hmean_eq]
    have := hb.1
    linarith
  · rw [hmean_eq]
    have := hb.2
    linarith
  · simp [overallStats]

end Percipio
